import Mathlib

/-!
Verification of `src/ctgan/synthesizers/ctgan.py` (CTGAN training core).

Shallow embedding conventions:
* Tensors are `List ℚ` (1-D) or `List (List ℚ)` (2-D, row major); machine
  floats are modelled as exact rationals.
* The tensor/autograd numerical engine (dense layers, batch norm, autograd
  gradients, optimizer arithmetic) is an external collaborator of this core,
  so the values it produces (network scores, gradient norms, loss values,
  parameter updates, random draws) enter the embedding as explicit function
  parameters (oracles); everything this file computes FROM those values is
  translated line by line from the source.
* Fallible code returns `Option`/`Except`.
-/

/-- `torch.mean` of a 1-D tensor: sum divided by length (0 for the empty
tensor, matching the `0 / 0 = 0` convention of `ℚ`). -/
def torchMean (l : List ℚ) : ℚ := l.sum / l.length

/-- `torch.sign` on a scalar: 1 for positive, -1 for negative, 0 at 0. -/
def torchSign (x : ℚ) : ℚ := if 0 < x then 1 else if x < 0 then -1 else 0

/-- `torch.greater(x, 0.5).float()` on a scalar. -/
def greaterHalf (x : ℚ) : ℚ := if 1 / 2 < x then 1 else 0

/-- `.max()` of a 1-D tensor (the source only applies it to nonempty
batches; the empty case defaults to 0). -/
def listMax : List ℚ → ℚ
  | [] => 0
  | x :: xs => xs.foldl max x

/-- `steps_per_epoch = max(len(train_data) // self._batch_size, 1)`
(ctgan.py line 376). -/
def stepsPerEpoch (numRows batch_size : Nat) : Nat :=
  max (numRows / batch_size) 1

/-- `Discriminator.forward` (ctgan.py lines 51-53):
`assert input.size()[0] % self.pac == 0` then
`self.seq(input.view(-1, self.pacdim))`.
The assertion failure is modelled as `none`.  `view(-1, pacdim)` groups each
run of `pac` consecutive rows into one flat vector; the network `self.seq`
(external numeric engine, final layer `Linear(dim, 1)`) maps each packed
vector to one scalar score and is passed in as `score`. -/
def Discriminator.forward (score : List ℚ → ℚ) (pac : Nat)
    (input : List (List ℚ)) : Option (List ℚ) :=
  if input.length % pac = 0 then
    some ((List.range (input.length / pac)).map
      (fun p => score (((input.drop (p * pac)).take pac).foldl (· ++ ·) [])))
  else
    none

/-- `alpha` of `Discriminator.calc_gradient_penalty` (ctgan.py lines 31-33):
`torch.rand(real_data.size(0) // pac, 1, 1)` draws one coefficient per pack
(`draw p` is the external RNG draw for pack `p`, `k = rows // pac`);
`.repeat(1, pac, cols)` copies it across the `pac` pack members and all
`cols` feature columns, and `.view(-1, cols)` flattens packs so that row
`r` of the result holds the coefficient of pack `r / pac` in every column. -/
def alphaExpand (pac cols : Nat) (draw : Nat → ℚ) (k : Nat) :
    List (List ℚ) :=
  (List.range (k * pac)).map
    (fun r => (List.range cols).map (fun _ => draw (r / pac)))

/-- Elementwise ternary zip used for the interpolation below. -/
def zipWith3Q (f : ℚ → ℚ → ℚ → ℚ) : List ℚ → List ℚ → List ℚ → List ℚ
  | a :: as, b :: bs, c :: cs => f a b c :: zipWith3Q f as bs cs
  | _, _, _ => []

/-- Row-wise ternary zip on 2-D tensors. -/
def zipWith3Rows (f : List ℚ → List ℚ → List ℚ → List ℚ) :
    List (List ℚ) → List (List ℚ) → List (List ℚ) → List (List ℚ)
  | a :: as, b :: bs, c :: cs => f a b c :: zipWith3Rows f as bs cs
  | _, _, _ => []

/-- `interpolates = alpha * real_data + ((1 - alpha) * fake_data)`
(ctgan.py line 35), elementwise over equally shaped 2-D tensors. -/
def interpolatesOf (alpha real fake : List (List ℚ)) : List (List ℚ) :=
  zipWith3Rows (fun ar rr fr => zipWith3Q (fun a r f => a * r + (1 - a) * f) ar rr fr)
    alpha real fake

/-- `Discriminator.calc_gradient_penalty` (ctgan.py lines 30-49).
Lines 37-46 run the critic on the interpolation and take the autograd
gradient of the scores with respect to it, then compute one L2 norm per
packed row (`gradients.view(-1, pac * cols).norm(2, dim=1)`); forward pass,
autograd, and the norm kernel belong to the external numeric engine and are
abstracted as `gradNorm`, which maps the interpolated input to the list of
per-pack gradient L2 norms.  Lines 45-47 then form
`((norms - 1) ** 2).mean() * lambda_` (default `lambda_ = 10`). -/
def Discriminator.calc_gradient_penalty (pac cols : Nat) (draw : Nat → ℚ)
    (gradNorm : List (List ℚ) → List ℚ) (real_data fake_data : List (List ℚ))
    (lambda_ : ℚ) : ℚ :=
  let alpha := alphaExpand pac cols draw (real_data.length / pac)
  let inter := interpolatesOf alpha real_data fake_data
  let norms := gradNorm inter
  torchMean (norms.map (fun g => (g - 1) ^ 2)) * lambda_

/-- `CTGANSynthesizer.sample` with no conditioning arguments
(ctgan.py lines 539-585, `condition_column = condition_value = None`):
`steps = n // self._batch_size + 1`; per step one chunk of `batch_size`
generated rows is appended to `data` (GAN track: `generator(fakez)` on a
`batch_size`-row noise draw; NF track: `nfgenerator.sample(batch_size)` —
both external numeric calls, abstracted as `chunk`), then
`np.concatenate(data)[: n]`. -/
def CTGANSynthesizer.sample (batch_size : Nat) (chunk : Nat → List (List ℚ))
    (n : Nat) : List (List ℚ) :=
  let steps := n / batch_size + 1
  let data := (List.range steps).foldl (fun acc i => acc ++ chunk i) []
  data.take n

/-- Input of `CTGANSynthesizer._validate_discrete_columns` (ctgan.py lines
265-288), packaging `train_data` together with the matching identifier type
of `discrete_columns`: column names for a `pd.DataFrame`, integer indices
for an `np.ndarray` (`ncols = train_data.shape[1]`), and a constructor for
any other container type. -/
inductive FitInput where
  | dataFrame (columns : List String) (discrete_columns : List String)
  | ndarray (ncols : Nat) (discrete_columns : List Int)
  | unrecognized

/-- Errors raised by `_validate_discrete_columns`: the `TypeError` of line
285 and the `ValueError('Invalid columns found: ...')` of line 288 carrying
the offending identifiers. -/
inductive ValidateError where
  | typeError
  | invalidColumnsDF (invalid : List String)
  | invalidColumnsND (invalid : List Int)

/-- `CTGANSynthesizer._validate_discrete_columns` (ctgan.py lines 265-288).
`pd.DataFrame`: `invalid_columns = set(discrete_columns) - set(columns)`
(modelled as the deduplicated list of supplied names that are not table
columns).  `np.ndarray`: the loop collecting every `column` with
`column < 0 or column >= train_data.shape[1]`.  Anything else raises
`TypeError`.  A nonempty `invalid_columns` raises `ValueError` carrying it. -/
def CTGANSynthesizer.validate_discrete_columns : FitInput → Except ValidateError Unit
  | FitInput.dataFrame columns discrete_columns =>
    let invalid_columns := (discrete_columns.filter (fun c => decide (c ∉ columns))).dedup
    if invalid_columns = [] then Except.ok ()
    else Except.error (ValidateError.invalidColumnsDF invalid_columns)
  | FitInput.ndarray ncols discrete_columns =>
    let invalid_columns :=
      discrete_columns.filter (fun c => decide (c < 0 ∨ (ncols : Int) ≤ c))
    if invalid_columns = [] then Except.ok ()
    else Except.error (ValidateError.invalidColumnsND invalid_columns)
  | FitInput.unrecognized => Except.error ValidateError.typeError

/-- The `prior_logprob` tensor returned by the flow model: either 1-D
(one value per batch row) or 2-D (per-row, per-dimension values). -/
inductive PriorLogProb where
  | dim1 (v : List ℚ)
  | dim2 (m : List (List ℚ))

/-- Lines 490-491: `if len(prior_logprob.shape) > 1:
prior_logprob = torch.mean(prior_logprob, axis=1)` — mean over the
non-batch dimension when the tensor is multi-dimensional. -/
def reducePriorLogProb : PriorLogProb → List ℚ
  | PriorLogProb.dim1 v => v
  | PriorLogProb.dim2 m => m.map torchMean

/-- Line 492: `logprob = prior_logprob + log_det` (elementwise over the
batch, after the reduction above). -/
def nf_logprob (prior_logprob : PriorLogProb) (log_det : List ℚ) : List ℚ :=
  List.zipWith (· + ·) (reducePriorLogProb prior_logprob) log_det

/-- NF track, `ML` objective (ctgan.py lines 490-494):
`nfloss = -torch.mean(logprob)`. -/
def nfloss_ML (prior_logprob : PriorLogProb) (log_det : List ℚ) : ℚ :=
  -(torchMean (nf_logprob prior_logprob log_det))

/-- Modelled from the spec: the `ML` objective as worded in spec sections
4.4 / claim C6 — total log-probability is the prior log-probability (first
reduced by mean over the non-batch dimension when multi-dimensional) plus
the log-determinant, and the loss is the negative mean of that total over
the batch. -/
def nflossML_spec (prior_logprob : PriorLogProb) (log_det : List ℚ) : ℚ :=
  let prior :=
    match prior_logprob with
    | PriorLogProb.dim1 v => v
    | PriorLogProb.dim2 m => m.map (fun row => row.sum / row.length)
  let total := List.zipWith (· + ·) prior log_det
  let loss := -(total.sum / total.length)
  loss

/-- NF track, `TA` objective (ctgan.py lines 495-511), with `s = real`:
`beta = -1`;
`logp = prior.log_prob(s)` mean-reduced when multi-dimensional (lines
499-501, same reduction as for `ML`) and `logq = nfgenerator.log_prob(s)`
are density values from the external flow model and enter as arguments;
`diff = logp - logq`; `weights = torch.exp(diff - diff.max())` (`texp`
abstracts the `exp` kernel of the numeric engine);
`prob = torch.greater(torch.sign(weights.unsqueeze(1) - weights.unsqueeze(0)), 0.5).float()`
— element `(i, j)` compares `weights i` against `weights j`;
`F = 1 - prob.sum(1) / self._batch_size`; `gammas = F ** beta`;
`gammas /= gammas.sum()`;
`nfloss = -torch.sum(torch.unsqueeze(gammas * diff, 1))`. -/
def nfloss_TA (texp : ℚ → ℚ) (batch_size : Nat) (prior_logprob : PriorLogProb)
    (logq : List ℚ) : ℚ :=
  let logp := reducePriorLogProb prior_logprob
  let diff := List.zipWith (· - ·) logp logq
  let weights := diff.map (fun d => texp (d - listMax diff))
  let prob := weights.map (fun wi => weights.map (fun wj => greaterHalf (torchSign (wi - wj))))
  let F := prob.map (fun row => 1 - row.sum / (batch_size : ℚ))
  let gammas := F.map (fun x => x ^ (-1 : ℤ))
  let gnorm := gammas.map (fun g => g / gammas.sum)
  let nfloss := -(List.zipWith (· * ·) gnorm diff).sum
  nfloss

/-- Modelled from the spec: the `TA` objective as worded in spec section
4.4 / claim C7 — importance weights from the difference between the prior
log-density and the flow log-density, a pairwise dominance matrix whose
element `(i, j)` is 1 exactly when weight `i` exceeds weight `j`, a
survival fraction `F i = 1 - rowsum i / batch_size`, a tilt `F i ^ (-1)`
normalized to sum to 1, and the loss as the negative sum of tilt-weighted
log-density differences. -/
def nflossTA_spec (texp : ℚ → ℚ) (batch_size : Nat) (logp logq : List ℚ) : ℚ :=
  let diff := List.zipWith (· - ·) logp logq
  let weights := diff.map (fun d => texp (d - listMax diff))
  let dominance := weights.map (fun wi => weights.map (fun wj => if wj < wi then (1 : ℚ) else 0))
  let F := dominance.map (fun row => 1 - row.sum / (batch_size : ℚ))
  let tilt := F.map (fun x => x ^ (-1 : ℤ))
  let tiltN := tilt.map (fun t => t / tilt.sum)
  let loss := -(List.zipWith (· * ·) tiltN diff).sum
  loss

/-- A Python/PyTorch `state_dict` value, as stored in
`self.best_model_sd`.  `Module.state_dict()` (with the default
`keep_vars=False`) returns the module parameter tensors `.detach()`-ed,
which share storage with the live parameters; the in-place `AdamW` updates
therefore keep mutating the saved dict.  The embedding records this as
`aliasOfGenerator` (a reference to the live parameter cell).  A true
snapshot (what `copy.deepcopy` would produce — the source imports `copy`
but never calls it; `self.best_model = copy.deepcopy(self)` is commented
out at line 518) is `valueCopy`. -/
inductive StateDict where
  | aliasOfGenerator
  | valueCopy (p : ℚ)
deriving DecidableEq

/-- Reading a `state_dict` given the current content of the live generator
parameter cell: an aliased dict always shows the current parameters, a
value copy shows the captured ones. -/
def StateDict.read (current : ℚ) : StateDict → ℚ
  | StateDict.aliasOfGenerator => current
  | StateDict.valueCopy p => p

/-- The mutable training state of `CTGANSynthesizer.fit` on the GAN track.
The generator parameter vector is abstracted to a single rational-valued
cell `genParams` (only the copy/alias discipline and the fact that the
optimizer mutates it matter to the claims); `dlosses`/`glosses` are the
loss-history lists, `min_loss` the running minimum (line 325), and
`best_model_sd` the saved dict (`none` before the first snapshot: the
attribute does not exist yet in Python). -/
structure GanFitState where
  genParams : ℚ
  dlosses : List ℚ
  glosses : List ℚ
  min_loss : ℚ
  best_model_sd : Option StateDict
deriving DecidableEq

/-- `self.min_loss = 999999999999999999.99999999999999` (line 325),
modelled as the exact decimal value of the literal. -/
def min_loss_init : ℚ := (10 ^ 32 - 1) / 10 ^ 14

/-- The inner discriminator loop (ctgan.py lines 383-434), GAN track:
`for n in range(self._discriminator_steps))`, each iteration drawing noise
and a fresh real batch, scoring both, computing the penalty and
`loss_d = -(torch.mean(y_real) - torch.mean(y_fake))`, appending `loss_d`
to `self.dlosses` (line 429) and stepping `optimizerD`.  All numeric work
happens in the external engine, so the recorded value of inner step `n` of
step `(i, id_)` enters as the oracle `dL i id_ n`; discriminator parameters
are not tracked (no claim mentions them). -/
def ganDiscSteps (dL : Nat → Nat → Nat → ℚ) (K i id_ : Nat)
    (st : GanFitState) : GanFitState :=
  (List.range K).foldl
    (fun s n => ⟨s.genParams, s.dlosses ++ [dL i id_ n], s.glosses, s.min_loss, s.best_model_sd⟩)
    st

/-- The generator step (ctgan.py lines 436-477), GAN track: compute
`loss_g` (oracle `gL i id_`, see `gan_loss_g` below for its shape), append
it to `self.glosses` (line 468); if `loss_g.item() < self.min_loss`, set
`self.min_loss = loss_g.item()` and
`self.best_model_sd = self.generator.state_dict()` (lines 469-472) — the
dict aliases the live parameters (`StateDict.aliasOfGenerator`); then
`optimizerG.step()` mutates the parameter cell in place (oracle `gUpd`). -/
def ganGenStep (gL : Nat → Nat → ℚ) (gUpd : Nat → Nat → ℚ → ℚ) (i id_ : Nat)
    (st : GanFitState) : GanFitState :=
  let loss_g := gL i id_
  if loss_g < st.min_loss then
    ⟨gUpd i id_ st.genParams, st.dlosses, st.glosses ++ [loss_g], loss_g,
      some StateDict.aliasOfGenerator⟩
  else
    ⟨gUpd i id_ st.genParams, st.dlosses, st.glosses ++ [loss_g], st.min_loss,
      st.best_model_sd⟩

/-- One outer iteration of the GAN track (lines 382-477): the inner
discriminator loop followed by one generator step. -/
def ganStep (dL : Nat → Nat → Nat → ℚ) (gL : Nat → Nat → ℚ)
    (gUpd : Nat → Nat → ℚ → ℚ) (K i id_ : Nat) (st : GanFitState) : GanFitState :=
  ganGenStep gL gUpd i id_ (ganDiscSteps dL K i id_ st)

/-- `for id_ in range(steps_per_epoch)` (line 381) for epoch `i`. -/
def ganEpoch (dL : Nat → Nat → Nat → ℚ) (gL : Nat → Nat → ℚ)
    (gUpd : Nat → Nat → ℚ → ℚ) (K S i : Nat) (st : GanFitState) : GanFitState :=
  (List.range S).foldl (fun s id_ => ganStep dL gL gUpd K i id_ s) st

/-- The GAN-track training loop of `CTGANSynthesizer.fit` (lines 325,
376-477): `epochs` epochs of `stepsPerEpoch numRows B` steps with `K`
discriminator steps each, starting from parameter cell `p0` and the
loss-history lists `dl0`/`gl0` carried over from the constructor (`fit`
never clears `self.dlosses`/`self.glosses`); `self.min_loss` is reset at
line 325 and `best_model_sd` does not exist yet. -/
def ganFit (dL : Nat → Nat → Nat → ℚ) (gL : Nat → Nat → ℚ)
    (gUpd : Nat → Nat → ℚ → ℚ) (epochs numRows B K : Nat) (p0 : ℚ)
    (dl0 gl0 : List ℚ) : GanFitState :=
  (List.range epochs).foldl
    (fun s i => ganEpoch dL gL gUpd K (stepsPerEpoch numRows B) i s)
    ⟨p0, dl0, gl0, min_loss_init, none⟩

/-- End of `fit`, `nfgenerator is None` branch (line 536):
`self.generator.load_state_dict(self.best_model_sd)` — loading copies the
values currently visible in the dict into the parameters, so an aliased
dict loads the parameters into themselves.  When no snapshot was ever taken
the attribute is missing (Python would raise; no claim exercises that
path, the state is returned unchanged). -/
def load_best (st : GanFitState) : GanFitState :=
  match st.best_model_sd with
  | none => st
  | some sd => ⟨StateDict.read st.genParams sd, st.dlosses, st.glosses,
      st.min_loss, st.best_model_sd⟩

/-- Modelled from the spec: the generator step as claim C1 / spec section
3 require it — identical to `ganGenStep` except that the best-state
snapshot is "a copy of the winning model's parameter values"
(`StateDict.valueCopy`), never a view of the live state. -/
def ganGenStepSnap (gL : Nat → Nat → ℚ) (gUpd : Nat → Nat → ℚ → ℚ) (i id_ : Nat)
    (st : GanFitState) : GanFitState :=
  let loss_g := gL i id_
  if loss_g < st.min_loss then
    ⟨gUpd i id_ st.genParams, st.dlosses, st.glosses ++ [loss_g], loss_g,
      some (StateDict.valueCopy st.genParams)⟩
  else
    ⟨gUpd i id_ st.genParams, st.dlosses, st.glosses ++ [loss_g], st.min_loss,
      st.best_model_sd⟩

/-- Modelled from the spec: `ganStep` with the value-copy snapshot. -/
def ganStepSnap (dL : Nat → Nat → Nat → ℚ) (gL : Nat → Nat → ℚ)
    (gUpd : Nat → Nat → ℚ → ℚ) (K i id_ : Nat) (st : GanFitState) : GanFitState :=
  ganGenStepSnap gL gUpd i id_ (ganDiscSteps dL K i id_ st)

/-- Modelled from the spec: `ganFit` with the value-copy snapshot. -/
def ganFitSnap (dL : Nat → Nat → Nat → ℚ) (gL : Nat → Nat → ℚ)
    (gUpd : Nat → Nat → ℚ → ℚ) (epochs numRows B K : Nat) (p0 : ℚ)
    (dl0 gl0 : List ℚ) : GanFitState :=
  (List.range epochs).foldl
    (fun s i =>
      (List.range (stepsPerEpoch numRows B)).foldl
        (fun s2 id_ => ganStepSnap dL gL gUpd K i id_ s2) s)
    ⟨p0, dl0, gl0, min_loss_init, none⟩

/-- `self._training_track`, the `'GAN' | 'NF'` constructor string. -/
inductive TrainingTrack where
  | GAN
  | NF
deriving DecidableEq

/-- The end-of-fit load dispatch (ctgan.py lines 535-538):
`if self.nfgenerator is None: self.generator.load_state_dict(self.best_model_sd)
else: self.nfgenerator.load_state_dict(self.best_model_sd)`.
`track` is `self._training_track`, in scope at these lines but not
consulted; `nfgenerator` carries the flow-model parameters when a flow
model object was supplied to the constructor; `best` is the value read out
of `self.best_model_sd`.  Returns the (generator params, flow params)
pair after the load. -/
def fit_end_load (track : TrainingTrack) (nfgenerator : Option ℚ)
    (genParams best : ℚ) : ℚ × Option ℚ :=
  match track, nfgenerator with
  | _, none => (best, none)
  | _, some _ => (genParams, some best)

/-- The conditioning vector quadruple `(c1, m1, col, opt)` produced by
`DataSampler.sample_condvec` (external collaborator). -/
structure CondVec where
  c1 : List ℚ
  m1 : List ℚ
  col : List Nat
  opt : List Nat

/-- ctgan.py lines 392-393 and 442-443: the call
`self._data_sampler.sample_condvec(self._batch_size)` is commented out and
`condvec = None` is hardcoded in both the discriminator and the generator
halves of the GAN step. -/
def sample_condvec_gan : Option CondVec := none

/-- Where the real batch of a GAN discriminator step comes from
(lines 394-406): the plain `DataLoader` when `condvec is None`, the
conditional `DataSampler.sample_data` otherwise. -/
inductive RealBatchSource where
  | dataLoader
  | conditionalSampler
deriving DecidableEq

/-- The real-batch dispatch of lines 394-406. -/
def gan_real_source : RealBatchSource :=
  match sample_condvec_gan with
  | none => RealBatchSource.dataLoader
  | some _ => RealBatchSource.conditionalSampler

/-- Lines 462-465: `cross_entropy = 0` when `condvec is None`, else
`self._cond_loss(fake, c1, m1)` (abstracted as `cond_loss`). -/
def gan_cross_entropy (cond_loss : CondVec → ℚ) : ℚ :=
  match sample_condvec_gan with
  | none => 0
  | some cv => cond_loss cv

/-- Line 467: `loss_g = -torch.mean(y_fake) + cross_entropy`, where
`y_fake` is the discriminator score vector on the fake batch. -/
def gan_loss_g (cond_loss : CondVec → ℚ) (y_fake : List ℚ) : ℚ :=
  -(torchMean y_fake) + gan_cross_entropy cond_loss

/-! ### Helper lemmas -/

/-- A fold whose every step adds `c` to the measure `g` adds
`l.length * c` in total. -/
lemma foldl_count {σ : Type} (g : σ → Nat) (f : σ → Nat → σ) (c : Nat)
    (h : ∀ s t, g (f s t) = g s + c) :
    ∀ (l : List Nat) (s : σ), g (l.foldl f s) = g s + l.length * c := by
  intro l
  induction l with
  | nil => intro s; simp
  | cons x xs ih =>
    intro s
    rw [List.foldl_cons, ih, h, List.length_cons, Nat.succ_mul]
    ring

/-- A fold whose every step preserves the projection `g` preserves it
in total. -/
lemma foldl_preserves {σ τ : Type} (g : σ → τ) (f : σ → Nat → σ)
    (h : ∀ s t, g (f s t) = g s) :
    ∀ (l : List Nat) (s : σ), g (l.foldl f s) = g s := by
  intro l
  induction l with
  | nil => intro s; rfl
  | cons x xs ih => intro s; rw [List.foldl_cons, ih, h]

/-- A fold whose every step extends the list projection `g` extends it
in total. -/
lemma foldl_extends {σ : Type} (g : σ → List ℚ) (f : σ → Nat → σ)
    (h : ∀ s t, g s <+: g (f s t)) :
    ∀ (l : List Nat) (s : σ), g s <+: g (l.foldl f s) := by
  intro l
  induction l with
  | nil => intro s; exact List.prefix_refl _
  | cons x xs ih => intro s; exact (h s x).trans (ih (f s x))

/-- A fold preserves any invariant preserved by its step. -/
lemma foldl_inv {σ : Type} (Q : σ → Prop) (f : σ → Nat → σ)
    (h : ∀ s t, Q s → Q (f s t)) :
    ∀ (l : List Nat) (s : σ), Q s → Q (l.foldl f s) := by
  intro l
  induction l with
  | nil => intro s hs; exact hs
  | cons x xs ih => intro s hs; exact ih (f s x) (h s x hs)

/-- Length of the chunk-concatenating fold of `CTGANSynthesizer.sample`
when every chunk has `B` rows. -/
lemma foldl_append_length (chunk : Nat → List (List ℚ)) (B : Nat)
    (hc : ∀ i, (chunk i).length = B) :
    ∀ (l : List Nat) (acc : List (List ℚ)),
      (l.foldl (fun a i => a ++ chunk i) acc).length = acc.length + l.length * B := by
  intro l
  induction l with
  | nil => intro acc; simp
  | cons x xs ih =>
    intro acc
    rw [List.foldl_cons, ih, List.length_append, hc x, List.length_cons, Nat.succ_mul]
    ring

/-- Sum of an elementwise sum of equally long lists. -/
lemma sum_zipWith_add : ∀ (a b : List ℚ), a.length = b.length →
    (List.zipWith (· + ·) a b).sum = a.sum + b.sum := by
  intro a
  induction a with
  | nil =>
    intro b h
    cases b with
    | nil => simp
    | cons y ys => simp at h
  | cons x xs ih =>
    intro b h
    cases b with
    | nil => simp at h
    | cons y ys =>
      simp only [List.zipWith_cons_cons, List.sum_cons]
      rw [ih ys (by simpa using h)]
      ring

/-- `torch.greater(torch.sign(x - y), 0.5)` is the indicator of `y < x`. -/
lemma greaterHalf_sign (x y : ℚ) :
    greaterHalf (torchSign (x - y)) = if y < x then 1 else 0 := by
  unfold greaterHalf torchSign
  rcases lt_trichotomy y x with h | h | h
  · rw [if_pos (sub_pos.mpr h), if_pos h]
    norm_num
  · rw [h, sub_self]
    norm_num
  · have h1 : x - y < 0 := sub_neg.mpr h
    rw [if_neg (by linarith : ¬(0 : ℚ) < x - y), if_pos h1,
      if_neg (not_lt.mpr (le_of_lt h))]
    norm_num

/-! ### Claim theorems -/

/-- Claim C2: `sample(n)` with no conditioning arguments returns exactly
`n` rows, for every relation of `n` to `batch_size`: it concatenates
`n / batch_size + 1` chunks of `batch_size` generated rows and truncates
to the first `n`. -/
theorem sample_returns_exactly_n (B : Nat) (chunk : Nat → List (List ℚ))
    (n : Nat) (hB : 0 < B) (hc : ∀ i, (chunk i).length = B) :
    (CTGANSynthesizer.sample B chunk n).length = n := by
  unfold CTGANSynthesizer.sample
  rw [List.length_take, foldl_append_length chunk B hc, List.length_range]
  have hmod : n % B < B := Nat.mod_lt n hB
  have hdm : n / B * B + n % B = n := Nat.div_add_mod' n B
  have hlt : n < (n / B + 1) * B := by
    rw [Nat.succ_mul]
    calc n = n / B * B + n % B := hdm.symm
    _ < n / B * B + B := Nat.add_lt_add_left hmod _
  simpa using Nat.min_eq_left (Nat.le_of_lt hlt)

/-- Claim C2 witness: `batch_size = 2`, `n = 3` (`n = batch_size + 1`). -/
theorem sample_returns_exactly_n_witness :
    (CTGANSynthesizer.sample 2 (fun _ => [[(0 : ℚ)], [0]]) 3).length = 3 :=
  sample_returns_exactly_n 2 (fun _ => [[(0 : ℚ)], [0]]) 3 (by decide) (fun _ => rfl)

/-- Claim C3: `Discriminator.forward` accepts every batch whose row count
is divisible by `pac` and returns one scalar score per pack of `pac` rows
(`rows / pac` scores); on every other row count the assertion at line 52
fails deterministically. -/
theorem discriminator_forward_packs (score : List ℚ → ℚ) (pac : Nat)
    (input : List (List ℚ)) :
    (input.length % pac = 0 →
      ∃ out, Discriminator.forward score pac input = some out ∧
        out.length = input.length / pac) ∧
    (input.length % pac ≠ 0 → Discriminator.forward score pac input = none) := by
  constructor
  · intro h
    refine ⟨(List.range (input.length / pac)).map
      (fun p => score (((input.drop (p * pac)).take pac).foldl (· ++ ·) [])), ?_, ?_⟩
    · unfold Discriminator.forward
      rw [if_pos h]
    · simp
  · intro h
    unfold Discriminator.forward
    rw [if_neg h]

/-- Claim C3 witness: `pac = 2` accepts a 4-row batch with 2 scores. -/
theorem discriminator_forward_packs_witness :
    ∃ out, Discriminator.forward List.sum 2 [[(1 : ℚ)], [2], [3], [4]] = some out ∧
      out.length = (List.length [[(1 : ℚ)], [2], [3], [4]]) / 2 :=
  (discriminator_forward_packs List.sum 2 [[(1 : ℚ)], [2], [3], [4]]).1
    (by decide)

/-- Claim C5: `_validate_discrete_columns` checks every supplied
discrete-column identifier (by column name on a `pd.DataFrame`, by the
bound check `0 <= index < ncols` on an `np.ndarray`), succeeds exactly
when all are valid, raises a `ValueError` enumerating exactly the invalid
identifiers otherwise, and raises a `TypeError` on any other container
type. -/
theorem validate_discrete_columns_enumerates (cols disc : List String)
    (ncols : Nat) (idisc : List Int) :
    (CTGANSynthesizer.validate_discrete_columns (FitInput.dataFrame cols disc) =
        Except.ok () ↔ ∀ c ∈ disc, c ∈ cols) ∧
    ((∃ c ∈ disc, c ∉ cols) →
      ∃ inv, CTGANSynthesizer.validate_discrete_columns (FitInput.dataFrame cols disc) =
          Except.error (ValidateError.invalidColumnsDF inv) ∧
        ∀ c, c ∈ inv ↔ (c ∈ disc ∧ c ∉ cols)) ∧
    (CTGANSynthesizer.validate_discrete_columns (FitInput.ndarray ncols idisc) =
        Except.ok () ↔ ∀ c ∈ idisc, 0 ≤ c ∧ c < (ncols : Int)) ∧
    ((∃ c ∈ idisc, c < 0 ∨ (ncols : Int) ≤ c) →
      ∃ inv, CTGANSynthesizer.validate_discrete_columns (FitInput.ndarray ncols idisc) =
          Except.error (ValidateError.invalidColumnsND inv) ∧
        ∀ c, c ∈ inv ↔ (c ∈ idisc ∧ (c < 0 ∨ (ncols : Int) ≤ c))) ∧
    CTGANSynthesizer.validate_discrete_columns FitInput.unrecognized =
      Except.error ValidateError.typeError := by
  have hmemDF : ∀ c : String,
      (c ∈ (disc.filter (fun c => decide (c ∉ cols))).dedup) ↔ (c ∈ disc ∧ c ∉ cols) := by
    intro c
    simp [List.mem_filter]
  have hmemND : ∀ c : Int,
      (c ∈ idisc.filter (fun c => decide (c < 0 ∨ (ncols : Int) ≤ c))) ↔
        (c ∈ idisc ∧ (c < 0 ∨ (ncols : Int) ≤ c)) := by
    intro c
    simp [List.mem_filter]
  have hDF : (∀ c ∈ disc, c ∈ cols) ↔
      (disc.filter (fun c => decide (c ∉ cols))).dedup = [] := by
    rw [List.eq_nil_iff_forall_not_mem]
    constructor
    · intro h c hc
      rw [hmemDF] at hc
      exact hc.2 (h c hc.1)
    · intro h c hc
      by_contra hn
      exact h c ((hmemDF c).mpr ⟨hc, hn⟩)
  have hND : (∀ c ∈ idisc, 0 ≤ c ∧ c < (ncols : Int)) ↔
      idisc.filter (fun c => decide (c < 0 ∨ (ncols : Int) ≤ c)) = [] := by
    rw [List.eq_nil_iff_forall_not_mem]
    constructor
    · intro h c hc
      rw [hmemND] at hc
      rcases (h c hc.1) with ⟨h0, h1⟩
      rcases hc.2 with h2 | h2
      · exact absurd h0 (not_le.mpr h2)
      · exact absurd h1 (not_lt.mpr h2)
    · intro h c hc
      by_contra hn
      push_neg at hn
      refine h c ((hmemND c).mpr ⟨hc, ?_⟩)
      by_cases h0 : c < 0
      · exact Or.inl h0
      · exact Or.inr (hn (not_lt.mp h0))
  refine ⟨?_, ?_, ?_, ?_, rfl⟩
  · constructor
    · intro hok
      rw [hDF]
      by_contra hne
      simp only [CTGANSynthesizer.validate_discrete_columns, if_neg hne] at hok
      exact Except.noConfusion hok
    · intro hall
      simp only [CTGANSynthesizer.validate_discrete_columns, if_pos (hDF.mp hall)]
  · rintro ⟨c, hc, hnc⟩
    have hne : (disc.filter (fun c => decide (c ∉ cols))).dedup ≠ [] := by
      intro h
      exact (List.eq_nil_iff_forall_not_mem.mp h) c ((hmemDF c).mpr ⟨hc, hnc⟩)
    refine ⟨(disc.filter (fun c => decide (c ∉ cols))).dedup, ?_, hmemDF⟩
    simp only [CTGANSynthesizer.validate_discrete_columns, if_neg hne]
  · constructor
    · intro hok
      rw [hND]
      by_contra hne
      simp only [CTGANSynthesizer.validate_discrete_columns, if_neg hne] at hok
      exact Except.noConfusion hok
    · intro hall
      simp only [CTGANSynthesizer.validate_discrete_columns, if_pos (hND.mp hall)]
  · rintro ⟨c, hc, hnc⟩
    have hne : idisc.filter (fun c => decide (c < 0 ∨ (ncols : Int) ≤ c)) ≠ [] := by
      intro h
      exact (List.eq_nil_iff_forall_not_mem.mp h) c ((hmemND c).mpr ⟨hc, hnc⟩)
    refine ⟨idisc.filter (fun c => decide (c < 0 ∨ (ncols : Int) ≤ c)), ?_, hmemND⟩
    simp only [CTGANSynthesizer.validate_discrete_columns, if_neg hne]

/-- Claim C5 witness: a labeled table with columns `["a"]` and discrete
list `["a", "b"]` raises with exactly `"b"` enumerated. -/
theorem validate_discrete_columns_enumerates_witness :
    ∃ inv, CTGANSynthesizer.validate_discrete_columns
        (FitInput.dataFrame ["a"] ["a", "b"]) =
        Except.error (ValidateError.invalidColumnsDF inv) ∧
      ∀ c, c ∈ inv ↔ (c ∈ ["a", "b"] ∧ c ∉ ["a"]) :=
  (validate_discrete_columns_enumerates ["a"] ["a", "b"] 1 []).2.1
    ⟨"b", by decide, by decide⟩

/-- Claim C6: under the NF track with the `ML` objective, the total
log-probability is the prior log-probability plus the log-determinant,
the prior log-probability being first mean-reduced over its non-batch
dimension when multi-dimensional, and the loss is the negative mean of
the total over the batch (equivalently, with matching batch lengths,
`-( (sum prior + sum log_det) / batch )` in the 1-D case). -/
theorem nf_ml_loss_correct (plp : PriorLogProb) (v ld : List ℚ)
    (h : v.length = ld.length) :
    nfloss_ML plp ld = nflossML_spec plp ld ∧
    nfloss_ML (PriorLogProb.dim1 v) ld = -((v.sum + ld.sum) / (v.length : ℚ)) := by
  have ht : torchMean = fun l : List ℚ => l.sum / (l.length : ℚ) := rfl
  constructor
  · cases plp <;>
      simp [nfloss_ML, nflossML_spec, nf_logprob, reducePriorLogProb, ht]
  · unfold nfloss_ML nf_logprob reducePriorLogProb torchMean
    rw [sum_zipWith_add v ld h, List.length_zipWith, h, min_self]

/-- Claim C6 witness: a concrete 1-row batch. -/
theorem nf_ml_loss_correct_witness :
    nfloss_ML (PriorLogProb.dim1 [(1 : ℚ)]) [2] =
        nflossML_spec (PriorLogProb.dim1 [(1 : ℚ)]) [2] ∧
    nfloss_ML (PriorLogProb.dim1 [(1 : ℚ)]) [2] =
      -((List.sum [(1 : ℚ)] + List.sum [(2 : ℚ)]) / (List.length [(1 : ℚ)] : ℚ)) :=
  nf_ml_loss_correct (PriorLogProb.dim1 [(1 : ℚ)]) [(1 : ℚ)] [2] rfl

/-- Claim C7: the `TA` objective of the NF track computes exactly the
spec formula — importance weights from the prior/flow log-density
difference, a dominance matrix with entry `(i, j)` equal to 1 exactly
when weight `i` exceeds weight `j`, survival fractions
`F i = 1 - rowsum i / batch_size`, tilts `F i ^ (-1)` normalized by their
sum, and the negative sum of tilt-weighted log-density differences. -/
theorem nf_ta_loss_refines_spec (texp : ℚ → ℚ) (B : Nat)
    (plp : PriorLogProb) (logq : List ℚ) :
    nfloss_TA texp B plp logq =
      nflossTA_spec texp B (reducePriorLogProb plp) logq := by
  unfold nfloss_TA nflossTA_spec
  simp only [greaterHalf_sign]

/-- Claim C8: the gradient penalty is non-negative for every real/fake
batch pair — it is the mean of squared deviations of the per-pack
gradient L2 norms from 1, scaled by the non-negative coefficient
`lambda_` (default 10) — and the interpolation draws one coefficient per
pack, broadcast across the pack members and all feature columns: row
`p * pac + j` of the expanded `alpha` is the pack-`p` draw in every
column. -/
theorem gradient_penalty_nonneg_broadcast (pac cols : Nat) (draw : Nat → ℚ)
    (gradNorm : List (List ℚ) → List ℚ) (real_data fake_data : List (List ℚ))
    (lambda_ : ℚ) (hl : 0 ≤ lambda_) (hpac : 0 < pac) :
    0 ≤ Discriminator.calc_gradient_penalty pac cols draw gradNorm
        real_data fake_data lambda_ ∧
    (∀ p j, p < real_data.length / pac → j < pac →
      (alphaExpand pac cols draw (real_data.length / pac))[p * pac + j]? =
        some (List.replicate cols (draw p))) := by
  constructor
  · unfold Discriminator.calc_gradient_penalty
    apply mul_nonneg _ hl
    unfold torchMean
    apply div_nonneg
    · apply List.sum_nonneg
      intro x hx
      rw [List.mem_map] at hx
      obtain ⟨g, _, rfl⟩ := hx
      exact sq_nonneg _
    · exact_mod_cast Nat.zero_le _
  · intro p j hp hj
    have hdiv : (p * pac + j) / pac = p := by
      rw [Nat.add_comm, Nat.add_mul_div_right j p hpac, Nat.div_eq_of_lt hj,
        Nat.zero_add]
    have hidx : p * pac + j < (real_data.length / pac) * pac :=
      calc p * pac + j < (p + 1) * pac := by
            rw [Nat.succ_mul]
            exact Nat.add_lt_add_left hj _
      _ ≤ (real_data.length / pac) * pac := Nat.mul_le_mul_right pac hp
    unfold alphaExpand
    rw [List.getElem?_map, List.getElem?_range hidx]
    simp [hdiv, List.map_const']

/-- Claim C8 witness: `pac = 2`, one pack of two 1-column rows,
`lambda_ = 10`. -/
theorem gradient_penalty_nonneg_broadcast_witness :
    0 ≤ Discriminator.calc_gradient_penalty 2 1 (fun _ => (1 : ℚ) / 2)
        (fun _ => [3]) [[0], [0]] [[1], [1]] 10 ∧
    (alphaExpand 2 1 (fun _ => (1 : ℚ) / 2) (List.length [[(0 : ℚ)], [0]] / 2))[1]? =
      some (List.replicate 1 ((1 : ℚ) / 2)) := by
  have h := gradient_penalty_nonneg_broadcast 2 1 (fun _ => (1 : ℚ) / 2)
    (fun _ => [3]) [[0], [0]] [[1], [1]] 10 (by norm_num) (by decide)
  refine ⟨h.1, ?_⟩
  have h2 := h.2 0 1 (by decide) (by decide)
  simpa using h2

/-- The inner discriminator loop appends exactly `K` entries to
`self.dlosses`. -/
lemma ganDiscSteps_dlosses_len (dL : Nat → Nat → Nat → ℚ) (K i id_ : Nat)
    (st : GanFitState) :
    (ganDiscSteps dL K i id_ st).dlosses.length = st.dlosses.length + K := by
  unfold ganDiscSteps
  have h := foldl_count (fun s : GanFitState => s.dlosses.length)
    (fun s n => ⟨s.genParams, s.dlosses ++ [dL i id_ n], s.glosses, s.min_loss,
      s.best_model_sd⟩)
    1 (fun s t => by simp) (List.range K) st
  simpa using h

/-- The inner discriminator loop only extends `self.dlosses`. -/
lemma ganDiscSteps_dlosses_prefix (dL : Nat → Nat → Nat → ℚ) (K i id_ : Nat)
    (st : GanFitState) :
    st.dlosses <+: (ganDiscSteps dL K i id_ st).dlosses := by
  unfold ganDiscSteps
  exact foldl_extends (fun s : GanFitState => s.dlosses)
    (fun s n => ⟨s.genParams, s.dlosses ++ [dL i id_ n], s.glosses, s.min_loss,
      s.best_model_sd⟩)
    (fun s t => ⟨[dL i id_ t], rfl⟩) (List.range K) st

/-- The inner discriminator loop does not touch `self.glosses`. -/
lemma ganDiscSteps_glosses (dL : Nat → Nat → Nat → ℚ) (K i id_ : Nat)
    (st : GanFitState) :
    (ganDiscSteps dL K i id_ st).glosses = st.glosses := by
  unfold ganDiscSteps
  exact foldl_preserves (fun s : GanFitState => s.glosses)
    (fun s n => ⟨s.genParams, s.dlosses ++ [dL i id_ n], s.glosses, s.min_loss,
      s.best_model_sd⟩)
    (fun s t => rfl) (List.range K) st

/-- The inner discriminator loop does not touch `self.best_model_sd`. -/
lemma ganDiscSteps_best (dL : Nat → Nat → Nat → ℚ) (K i id_ : Nat)
    (st : GanFitState) :
    (ganDiscSteps dL K i id_ st).best_model_sd = st.best_model_sd := by
  unfold ganDiscSteps
  exact foldl_preserves (fun s : GanFitState => s.best_model_sd)
    (fun s n => ⟨s.genParams, s.dlosses ++ [dL i id_ n], s.glosses, s.min_loss,
      s.best_model_sd⟩)
    (fun s t => rfl) (List.range K) st

/-- The generator step does not touch `self.dlosses`. -/
lemma ganGenStep_dlosses (gL : Nat → Nat → ℚ) (gUpd : Nat → Nat → ℚ → ℚ)
    (i id_ : Nat) (st : GanFitState) :
    (ganGenStep gL gUpd i id_ st).dlosses = st.dlosses := by
  simp only [ganGenStep]
  split <;> rfl

/-- The generator step appends exactly its loss to `self.glosses`. -/
lemma ganGenStep_glosses (gL : Nat → Nat → ℚ) (gUpd : Nat → Nat → ℚ → ℚ)
    (i id_ : Nat) (st : GanFitState) :
    (ganGenStep gL gUpd i id_ st).glosses = st.glosses ++ [gL i id_] := by
  simp only [ganGenStep]
  split <;> rfl

/-- One GAN step appends exactly `K` discriminator losses. -/
lemma ganStep_dlosses_len (dL : Nat → Nat → Nat → ℚ) (gL : Nat → Nat → ℚ)
    (gUpd : Nat → Nat → ℚ → ℚ) (K i id_ : Nat) (st : GanFitState) :
    (ganStep dL gL gUpd K i id_ st).dlosses.length = st.dlosses.length + K := by
  unfold ganStep
  rw [ganGenStep_dlosses, ganDiscSteps_dlosses_len]

/-- One GAN step appends exactly one generator loss. -/
lemma ganStep_glosses_len (dL : Nat → Nat → Nat → ℚ) (gL : Nat → Nat → ℚ)
    (gUpd : Nat → Nat → ℚ → ℚ) (K i id_ : Nat) (st : GanFitState) :
    (ganStep dL gL gUpd K i id_ st).glosses.length = st.glosses.length + 1 := by
  unfold ganStep
  rw [ganGenStep_glosses, List.length_append, ganDiscSteps_glosses]
  rfl

/-- One epoch appends `S * K` discriminator losses. -/
lemma ganEpoch_dlosses_len (dL : Nat → Nat → Nat → ℚ) (gL : Nat → Nat → ℚ)
    (gUpd : Nat → Nat → ℚ → ℚ) (K S i : Nat) (st : GanFitState) :
    (ganEpoch dL gL gUpd K S i st).dlosses.length = st.dlosses.length + S * K := by
  unfold ganEpoch
  have h := foldl_count (fun s : GanFitState => s.dlosses.length)
    (fun s id_ => ganStep dL gL gUpd K i id_ s) K
    (fun s t => ganStep_dlosses_len dL gL gUpd K i t s) (List.range S) st
  simpa using h

/-- One epoch appends `S` generator losses. -/
lemma ganEpoch_glosses_len (dL : Nat → Nat → Nat → ℚ) (gL : Nat → Nat → ℚ)
    (gUpd : Nat → Nat → ℚ → ℚ) (K S i : Nat) (st : GanFitState) :
    (ganEpoch dL gL gUpd K S i st).glosses.length = st.glosses.length + S := by
  unfold ganEpoch
  have h := foldl_count (fun s : GanFitState => s.glosses.length)
    (fun s id_ => ganStep dL gL gUpd K i id_ s) 1
    (fun s t => ganStep_glosses_len dL gL gUpd K i t s) (List.range S) st
  simpa using h

/-- Across a GAN-track fit run, `self.best_model_sd` is only ever absent
or the aliased generator dict. -/
lemma ganFit_best_alias (dL : Nat → Nat → Nat → ℚ) (gL : Nat → Nat → ℚ)
    (gUpd : Nat → Nat → ℚ → ℚ) (E numRows B K : Nat) (p0 : ℚ)
    (dl0 gl0 : List ℚ) :
    (ganFit dL gL gUpd E numRows B K p0 dl0 gl0).best_model_sd = none ∨
    (ganFit dL gL gUpd E numRows B K p0 dl0 gl0).best_model_sd =
      some StateDict.aliasOfGenerator := by
  unfold ganFit
  refine foldl_inv
    (fun s : GanFitState => s.best_model_sd = none ∨
      s.best_model_sd = some StateDict.aliasOfGenerator)
    _ ?_ (List.range E) _ (Or.inl rfl)
  intro s i hs
  unfold ganEpoch
  refine foldl_inv
    (fun s : GanFitState => s.best_model_sd = none ∨
      s.best_model_sd = some StateDict.aliasOfGenerator)
    _ ?_ (List.range (stepsPerEpoch numRows B)) _ hs
  intro s2 t hs2
  unfold ganStep
  have hd := ganDiscSteps_best dL K i t s2
  simp only [ganGenStep]
  split
  · exact Or.inr rfl
  · rw [hd]
    exact hs2

/-- Loading the saved dict back never changes the generator parameters
when the dict is absent or aliased. -/
lemma load_best_genParams (st : GanFitState)
    (h : st.best_model_sd = none ∨
      st.best_model_sd = some StateDict.aliasOfGenerator) :
    (load_best st).genParams = st.genParams := by
  rcases h with h | h <;> simp [load_best, h, StateDict.read]

/-- Claim C4: under the GAN track, a fit run of `E` epochs over `numRows`
rows with batch size `B` and `K` discriminator steps grows the
discriminator-loss history by exactly
`E * stepsPerEpoch numRows B * K` entries and the generator-loss history
by exactly `E * stepsPerEpoch numRows B` entries, and each step only
appends (both histories of the pre-step state are prefixes of the
post-step ones). -/
theorem gan_fit_history_growth (dL : Nat → Nat → Nat → ℚ) (gL : Nat → Nat → ℚ)
    (gUpd : Nat → Nat → ℚ → ℚ) (E numRows B K : Nat) (p0 : ℚ)
    (dl0 gl0 : List ℚ) :
    (ganFit dL gL gUpd E numRows B K p0 dl0 gl0).dlosses.length =
      dl0.length + E * stepsPerEpoch numRows B * K ∧
    (ganFit dL gL gUpd E numRows B K p0 dl0 gl0).glosses.length =
      gl0.length + E * stepsPerEpoch numRows B ∧
    (∀ (st : GanFitState) (i id_ : Nat),
      st.dlosses <+: (ganStep dL gL gUpd K i id_ st).dlosses ∧
      st.glosses <+: (ganStep dL gL gUpd K i id_ st).glosses) := by
  refine ⟨?_, ?_, ?_⟩
  · unfold ganFit
    have h := foldl_count (fun s : GanFitState => s.dlosses.length)
      (fun s i => ganEpoch dL gL gUpd K (stepsPerEpoch numRows B) i s)
      (stepsPerEpoch numRows B * K)
      (fun s t => ganEpoch_dlosses_len dL gL gUpd K (stepsPerEpoch numRows B) t s)
      (List.range E) ⟨p0, dl0, gl0, min_loss_init, none⟩
    rw [h]
    simp [Nat.mul_assoc]
  · unfold ganFit
    have h := foldl_count (fun s : GanFitState => s.glosses.length)
      (fun s i => ganEpoch dL gL gUpd K (stepsPerEpoch numRows B) i s)
      (stepsPerEpoch numRows B)
      (fun s t => ganEpoch_glosses_len dL gL gUpd K (stepsPerEpoch numRows B) t s)
      (List.range E) ⟨p0, dl0, gl0, min_loss_init, none⟩
    rw [h]
    simp
  · intro st i id_
    constructor
    · have h1 := ganDiscSteps_dlosses_prefix dL K i id_ st
      unfold ganStep
      rw [ganGenStep_dlosses]
      exact h1
    · refine ⟨[gL i id_], ?_⟩
      unfold ganStep
      rw [ganGenStep_glosses, ganDiscSteps_glosses]

/-- Claim C1 (code bug exhibit).  First conjunct: for EVERY GAN-track fit
run, the end-of-fit `load_state_dict(self.best_model_sd)` leaves the
generator parameters exactly as the last optimizer step left them —
because `state_dict()` returned tensors aliasing the live parameters, the
"best" dict always shows the current parameters and the restore is a
no-op.  Remaining conjuncts: a concrete 2-step run (losses 0 then 1, so
the recorded minimum 0 is achieved at the first step, whose snapshot-time
parameter value is 0; each optimizer step adds 1 to the parameter cell
starting from 0): the code loads final parameters 2, while the
value-copy snapshot semantics required by the spec
(`ganFitSnap`) loads 0, with identical loss histories and identical
recorded minimum. -/
theorem fit_restore_loads_final_not_best :
    (∀ (dL : Nat → Nat → Nat → ℚ) (gL : Nat → Nat → ℚ)
        (gUpd : Nat → Nat → ℚ → ℚ) (E numRows B K : Nat) (p0 : ℚ)
        (dl0 gl0 : List ℚ),
      (load_best (ganFit dL gL gUpd E numRows B K p0 dl0 gl0)).genParams =
        (ganFit dL gL gUpd E numRows B K p0 dl0 gl0).genParams) ∧
    (load_best (ganFit (fun _ _ _ => 0) (fun _ id_ => (id_ : ℚ))
        (fun _ _ p => p + 1) 1 2 1 1 0 [] [])).genParams = 2 ∧
    (ganFit (fun _ _ _ => 0) (fun _ id_ => (id_ : ℚ))
        (fun _ _ p => p + 1) 1 2 1 1 0 [] []).min_loss = 0 ∧
    (ganFit (fun _ _ _ => 0) (fun _ id_ => (id_ : ℚ))
        (fun _ _ p => p + 1) 1 2 1 1 0 [] []).glosses = [0, 1] ∧
    (load_best (ganFitSnap (fun _ _ _ => 0) (fun _ id_ => (id_ : ℚ))
        (fun _ _ p => p + 1) 1 2 1 1 0 [] [])).genParams = 0 ∧
    (ganFitSnap (fun _ _ _ => 0) (fun _ id_ => (id_ : ℚ))
        (fun _ _ p => p + 1) 1 2 1 1 0 [] []).min_loss = 0 ∧
    (ganFitSnap (fun _ _ _ => 0) (fun _ id_ => (id_ : ℚ))
        (fun _ _ p => p + 1) 1 2 1 1 0 [] []).glosses = [0, 1] :=
  ⟨fun dL gL gUpd E numRows B K p0 dl0 gl0 =>
      load_best_genParams _ (ganFit_best_alias dL gL gUpd E numRows B K p0 dl0 gl0),
    by norm_num [ganFit, ganEpoch, ganStep, ganDiscSteps, ganGenStep, load_best,
      StateDict.read, stepsPerEpoch, min_loss_init, List.range_succ],
    by norm_num [ganFit, ganEpoch, ganStep, ganDiscSteps, ganGenStep, load_best,
      StateDict.read, stepsPerEpoch, min_loss_init, List.range_succ],
    by norm_num [ganFit, ganEpoch, ganStep, ganDiscSteps, ganGenStep, load_best,
      StateDict.read, stepsPerEpoch, min_loss_init, List.range_succ],
    by norm_num [ganFitSnap, ganStepSnap, ganDiscSteps, ganGenStepSnap, load_best,
      StateDict.read, stepsPerEpoch, min_loss_init, List.range_succ],
    by norm_num [ganFitSnap, ganStepSnap, ganDiscSteps, ganGenStepSnap, load_best,
      StateDict.read, stepsPerEpoch, min_loss_init, List.range_succ],
    by norm_num [ganFitSnap, ganStepSnap, ganDiscSteps, ganGenStepSnap, load_best,
      StateDict.read, stepsPerEpoch, min_loss_init, List.range_succ]⟩

/-- Claim C9: the end-of-fit load target is chosen solely by whether a
flow-model object was supplied (`self.nfgenerator is None`), never by the
configured training track: the dispatch is identical for every pair of
tracks, and with a flow model present under the `GAN` track the best dict
value goes into the flow model while the generator keeps its final
parameters. -/
theorem fit_end_load_ignores_track (ta tb : TrainingTrack) (nfg : Option ℚ)
    (gp best f : ℚ) :
    fit_end_load ta nfg gp best = fit_end_load tb nfg gp best ∧
    fit_end_load TrainingTrack.GAN (some f) gp best = (gp, some best) ∧
    fit_end_load TrainingTrack.GAN none gp best = (best, none) := by
  refine ⟨?_, rfl, rfl⟩
  cases nfg <;> cases ta <;> cases tb <;> rfl

/-- Claim C10: in every GAN-track step the conditioning vector is the
hardcoded `None`, so the auxiliary cross-entropy term is the constant 0,
the generator loss is exactly `-mean(y_fake)`, and the real batch comes
from the plain data loader, not the conditional sampler. -/
theorem gan_track_unconditional (cond_loss : CondVec → ℚ) (y_fake : List ℚ) :
    sample_condvec_gan = none ∧
    gan_cross_entropy cond_loss = 0 ∧
    gan_loss_g cond_loss y_fake = -(torchMean y_fake) ∧
    gan_real_source = RealBatchSource.dataLoader := by
  refine ⟨rfl, rfl, ?_, rfl⟩
  unfold gan_loss_g gan_cross_entropy sample_condvec_gan
  simp

